import Mathlib

/-!
Verification of the ban subsystem of the freenet-chat room-state core.

The ban component (`src/common/src/state/ban.rs`) is embedded shallowly:
`BansV1` and its four `ComposableState` operations (`verify`, `summarize`,
`delta`, `apply_delta`) together with `get_invalid_bans` are translated
directly from the Rust source.  The member directory, the invite-chain walk
and the configuration record live in modules that are not part of the
provided sources; they are modelled from the specification (each such
definition carries a doc comment starting `Modelled from the spec:`).

Cryptographic material is abstracted: a signature is an opaque number and
`fast_hash` of a signature is modelled as the identity on that number (the
specification treats hash collisions as cryptographically negligible, so the
identifier is in effect a stable injective function of the signature).
`SystemTime` is modelled as a natural-number timestamp, and `HashMap<BanId,
String>` as an association list whose insert replaces the binding of an
existing key; the theorems below depend only on the key/value sets of that
map, never on its iteration order.
-/

deriving instance DecidableEq for Except

/-- A member identifier: a fixed-size id derived deterministically from a
member's public verifying key, modelled abstractly as a natural number. -/
abbrev MemberId := Nat

/-- Modelled from the spec: a `Member` holds the member's identity and the
identity of whoever invited them (`invited_by`).  The signing-key data of the
source `Member` is irrelevant to the ban component and omitted. -/
structure Member where
  id : MemberId
  invited_by : MemberId
deriving DecidableEq, Repr

/-- Modelled from the spec: an `AuthorizedMember` pairs a `Member` with a
signature from its inviter; the signature is never consulted by the ban
component, so only the member record is kept. -/
structure AuthorizedMember where
  member : Member
deriving DecidableEq, Repr

/-- Modelled from the spec: `MembersV1` is the ordered collection of
`AuthorizedMember` records (the room's member directory). -/
structure MembersV1 where
  members : List AuthorizedMember
deriving DecidableEq, Repr

/-- Modelled from the spec: the room configuration exposes the configured
maximum number of user bans (`max_user_bans`). -/
structure Configuration where
  max_user_bans : Nat
deriving DecidableEq, Repr

/-- Modelled from the spec: `AuthorizedConfigurationV1` wraps a
`Configuration`; `ban.rs` reads `parent_state.configuration.configuration`. -/
structure AuthorizedConfigurationV1 where
  configuration : Configuration
deriving DecidableEq, Repr

/-- Modelled from the spec: the immutable per-room parameters, notably the
owner's identity.  The source stores the owner's verifying key and derives the
id on demand; here the derived id is stored directly. -/
structure ChatRoomParametersV1 where
  owner : MemberId
deriving DecidableEq, Repr

/-- `parameters.owner_id()`: the `MemberId` of the room owner. -/
def ChatRoomParametersV1.owner_id (p : ChatRoomParametersV1) : MemberId :=
  p.owner

/-- Modelled from the spec: the aggregate room state.  Only the two sub-states
that the ban component reads through the parent (`configuration` and
`members`) are retained; `member_info`, `recent_messages`, `upgrade` and
`bans` itself are never consulted by `ban.rs` through `parent_state`. -/
structure ChatRoomStateV1 where
  configuration : AuthorizedConfigurationV1
  members : MembersV1
deriving DecidableEq, Repr

/-- `MembersV1::members_by_member_id`, modelled from the spec: the member
directory keyed by member id.  Lookup returns the first directory entry with
the given id (a directory with duplicate ids is degenerate and outside every
invariant the spec states). -/
def MembersV1.members_by_member_id (ms : MembersV1) (i : MemberId) :
    Option AuthorizedMember :=
  ms.members.find? (fun m => m.member.id = i)

/-- Fuel-bounded walk used by `MembersV1.get_invite_chain`.  The fuel bound
realises the spec's demand that a cyclic or unterminated `invited_by` walk is
detected and reported as an error rather than looping. -/
def inviteChainWalk (ms : MembersV1) (owner : MemberId) :
    Nat → AuthorizedMember → List AuthorizedMember →
    Except String (List AuthorizedMember)
  | 0, _, _ => Except.error "Invite chain does not terminate at the owner"
  | fuel + 1, cur, acc =>
    if cur.member.id = owner then
      Except.ok acc.reverse
    else
      match ms.members_by_member_id cur.member.invited_by with
      | none => Except.error "Inviting member not found in member list"
      | some inviter => inviteChainWalk ms owner fuel inviter (inviter :: acc)

/-- `MembersV1::get_invite_chain`, modelled from the spec: starting from the
member, repeatedly look up its inviter in the member directory, following
`invited_by` links, until the owner is reached or a cycle / missing link is
detected.  The returned chain is the sequence of inviter links connecting the
member back to the room owner, nearest inviter first, ending with the owner's
directory entry; the member itself is not part of its own chain. -/
def MembersV1.get_invite_chain (ms : MembersV1) (m : AuthorizedMember)
    (params : ChatRoomParametersV1) : Except String (List AuthorizedMember) :=
  inviteChainWalk ms params.owner_id (ms.members.length + 1) m []

/-- The identifier obtained by `fast_hash` over a signature's bytes; the hash
is modelled as the identity on the abstract signature value. -/
abbrev FastHash := Nat

/-- `BanId`: content hash of a ban's signature, the stable identity used for
summaries and deltas. -/
structure BanId where
  hash : FastHash
deriving DecidableEq, Repr

/-- `UserBan`: the unsigned ban payload `{owner_member_id, banned_at,
banned_user}`; `banned_at` is a `SystemTime` modelled as a Nat timestamp. -/
structure UserBan where
  owner_member_id : MemberId
  banned_at : Nat
  banned_user : MemberId
deriving DecidableEq, Repr

/-- `AuthorizedUserBan`: a `UserBan` plus the banning member's id and the
banner's signature over the payload, the signature abstracted to a number. -/
structure AuthorizedUserBan where
  ban : UserBan
  banned_by : MemberId
  signature : Nat
deriving DecidableEq, Repr

/-- `AuthorizedUserBan::id`: `BanId(fast_hash(signature))`. -/
def AuthorizedUserBan.id (b : AuthorizedUserBan) : BanId :=
  ⟨b.signature⟩

/-- `BansV1`: the ordered collection of `AuthorizedUserBan` (the Rust tuple
field `.0` is named `bans` here). -/
structure BansV1 where
  bans : List AuthorizedUserBan
deriving DecidableEq, Repr

/-- `HashMap::insert` on the invalid-bans map, modelled on an association
list: replace the binding of an existing key, or append a new binding. -/
def insertReason : List (BanId × String) → BanId → String →
    List (BanId × String)
  | [], k, v => [(k, v)]
  | (k0, v0) :: rest, k, v =>
    if k0 = k then (k, v) :: rest else (k0, v0) :: insertReason rest k v

/-- One iteration of the authorization loop of `BansV1::get_invalid_bans`
(`ban.rs` lines 26–72): look up banner and target in the member directory,
and, unless the banner is the room owner, fetch the banner's invite chain and
require the banned member to occur in it (this is what the source checks,
whatever its error string says). -/
def authRulesStep (parent : ChatRoomStateV1) (params : ChatRoomParametersV1)
    (acc : List (BanId × String)) (ban : AuthorizedUserBan) :
    List (BanId × String) :=
  match parent.members.members_by_member_id ban.banned_by with
  | none => insertReason acc ban.id "Banning member not found in member list"
  | some banning_member =>
    match parent.members.members_by_member_id ban.ban.banned_user with
    | none => insertReason acc ban.id "Banned member not found in member list"
    | some banned_member =>
      if ban.banned_by ≠ params.owner_id then
        match parent.members.get_invite_chain banning_member params with
        | Except.error e =>
          insertReason acc ban.id ("Error getting invite chain: " ++ e)
        | Except.ok chain =>
          if ¬ chain.any (fun m => m.member.id = banned_member.member.id) then
            insertReason acc ban.id
              "Banner is not in the invite chain of the banned member"
          else acc
      else acc

/-- Stable insertion of a ban into a list sorted ascending by `banned_at`:
the new ban goes after every ban with a smaller-or-equal timestamp, matching
the stability of Rust's `sort_by_key`. -/
def insertByBannedAt (x : AuthorizedUserBan) :
    List AuthorizedUserBan → List AuthorizedUserBan
  | [] => [x]
  | y :: ys =>
    if y.ban.banned_at ≤ x.ban.banned_at then y :: insertByBannedAt x ys
    else x :: y :: ys

/-- `extra_bans_vec.sort_by_key(|ban| ban.ban.banned_at)`: stable sort
ascending by `banned_at`. -/
def sortByBannedAt (l : List AuthorizedUserBan) : List AuthorizedUserBan :=
  l.foldl (fun acc x => insertByBannedAt x acc) []

/-- `BansV1::get_invalid_bans`: the map from `BanId` to a human-readable
reason for every currently-invalid ban — the authorization loop over the
collection, then, when the collection size exceeds `max_user_bans`, the quota
marking pass: clone, sort ascending by `banned_at`, reverse, and mark the
first `extra_bans` entries of that reversed (descending) order invalid with
"Exceeded maximum number of user bans".  The size difference is computed in
`isize`, modelled as `Int`. -/
def BansV1.get_invalid_bans (s : BansV1) (parent : ChatRoomStateV1)
    (params : ChatRoomParametersV1) : List (BanId × String) :=
  let afterAuth := s.bans.foldl (authRulesStep parent params) []
  let extra_bans : Int :=
    (s.bans.length : Int) -
      (parent.configuration.configuration.max_user_bans : Int)
  if extra_bans > 0 then
    let extra_bans_vec := (sortByBannedAt s.bans).reverse
    (extra_bans_vec.take extra_bans.toNat).foldl
      (fun acc ban =>
        insertReason acc ban.id "Exceeded maximum number of user bans")
      afterAuth
  else afterAuth

/-- `BansV1::verify`: fail with "Invalid bans" unless the invalid map is
empty. -/
def BansV1.verify (s : BansV1) (parent : ChatRoomStateV1)
    (params : ChatRoomParametersV1) : Except String Unit :=
  if ¬ (s.get_invalid_bans parent params).isEmpty then
    Except.error "Invalid bans"
  else
    Except.ok ()

/-- `BansV1::summarize`: the list of `BanId`s of the collection, in collection
order; the parent state and parameters are ignored. -/
def BansV1.summarize (s : BansV1) (_parent : ChatRoomStateV1)
    (_params : ChatRoomParametersV1) : List BanId :=
  s.bans.map (fun ban => ban.id)

/-- `BansV1::delta`: the bans of the collection whose id is absent from the
old summary, in collection order, or `none` when there are no such bans. -/
def BansV1.delta (s : BansV1) (_parent : ChatRoomStateV1)
    (_params : ChatRoomParametersV1) (old_state_summary : List BanId) :
    Option (List AuthorizedUserBan) :=
  let d := s.bans.filter (fun ban => decide (ban.id ∉ old_state_summary))
  if d.isEmpty then none else some d

/-- `BansV1::apply_delta`, embedded with explicit state passing: build the
candidate `temp_bans` by extending the current collection with the delta's
records, verify it, and on success commit the candidate; on failure return the
error with the receiver untouched (the Rust method returns `Err` before any
assignment to `self`).  The first component is the post-call state of the
receiver, the second the returned `Result`. -/
def BansV1.apply_delta (s : BansV1) (parent : ChatRoomStateV1)
    (params : ChatRoomParametersV1) (delta : List AuthorizedUserBan) :
    BansV1 × Except String Unit :=
  let temp_bans : BansV1 := ⟨s.bans ++ delta⟩
  match temp_bans.verify parent params with
  | Except.error e => (s, Except.error ("Invalid delta: " ++ e))
  | Except.ok _ => (temp_bans, Except.ok ())

/-- The code-side authorization condition of a single ban: the exact condition
under which the authorization loop of `get_invalid_bans` records nothing for
the ban (banner found, target found, and banner is the owner or the banned
member occurs in the banner's invite chain). -/
def banPassesAuthRules (parent : ChatRoomStateV1)
    (params : ChatRoomParametersV1) (ban : AuthorizedUserBan) : Bool :=
  match parent.members.members_by_member_id ban.banned_by with
  | none => false
  | some banning_member =>
    match parent.members.members_by_member_id ban.ban.banned_user with
    | none => false
    | some banned_member =>
      if ban.banned_by ≠ params.owner_id then
        match parent.members.get_invite_chain banning_member params with
        | Except.error _ => false
        | Except.ok chain =>
          chain.any (fun m => m.member.id = banned_member.member.id)
      else true

/-- The ban-authorization rule as the specification states it: banner and
target are both present in the member directory, and the banner is the room
owner or appears in the invite chain of the banned user. -/
def specAuthorizedBan (parent : ChatRoomStateV1)
    (params : ChatRoomParametersV1) (ban : AuthorizedUserBan) : Bool :=
  match parent.members.members_by_member_id ban.banned_by,
      parent.members.members_by_member_id ban.ban.banned_user with
  | some _, some banned_member =>
    decide (ban.banned_by = params.owner_id) ||
      (match parent.members.get_invite_chain banned_member params with
       | Except.error _ => false
       | Except.ok chain => chain.any (fun m => m.member.id = ban.banned_by))
  | _, _ => false

/-- Room owner fixture: id 0, self-referential `invited_by` (never read,
since the chain walk stops at the owner's id). -/
def memberO : AuthorizedMember := ⟨⟨0, 0⟩⟩

/-- Member A, invited directly by the owner. -/
def memberA : AuthorizedMember := ⟨⟨1, 0⟩⟩

/-- Member B, invited by member A. -/
def memberB : AuthorizedMember := ⟨⟨2, 1⟩⟩

/-- Parameters naming member 0 as the room owner. -/
def paramsOwner0 : ChatRoomParametersV1 := ⟨0⟩

/-- Room state with members O, A, B and the given ban quota. -/
def stateOAB (mx : Nat) : ChatRoomStateV1 :=
  ⟨⟨⟨mx⟩⟩, ⟨[memberO, memberA, memberB]⟩⟩

/-- Room state with members O and A and the given ban quota. -/
def stateOA (mx : Nat) : ChatRoomStateV1 := ⟨⟨⟨mx⟩⟩, ⟨[memberO, memberA]⟩⟩

/-- A ban of member B issued by member A (A lies in B's invite chain, so the
spec's rule authorizes it). -/
def banAonB : AuthorizedUserBan := ⟨⟨0, 0, 2⟩, 1, 100⟩

/-- A ban of member A issued by the owner, at time `t`, with signature
`sig`. -/
def ownerBanAt (t sig : Nat) : AuthorizedUserBan := ⟨⟨0, t, 1⟩, 0, sig⟩

/-- Six owner-issued bans of member A with distinct, increasing `banned_at`
timestamps 0..5 and signatures 10..15. -/
def bansSix : BansV1 :=
  ⟨[ownerBanAt 0 10, ownerBanAt 1 11, ownerBanAt 2 12, ownerBanAt 3 13,
    ownerBanAt 4 14, ownerBanAt 5 15]⟩

/-- Inserting a reason whose text differs from `Q` into a map none of whose
reasons is `Q` yields a map none of whose reasons is `Q`. -/
theorem insertReason_reason_ne (Q : String) (k : BanId) (v : String)
    (hv : v ≠ Q) :
    ∀ (acc : List (BanId × String)), (∀ p ∈ acc, p.2 ≠ Q) →
      ∀ p ∈ insertReason acc k v, p.2 ≠ Q := by
  intro acc
  induction acc with
  | nil =>
    intro _ p hp
    simp only [insertReason, List.mem_singleton] at hp
    rw [hp]
    exact hv
  | cons head tail ih =>
    intro hacc p hp
    obtain ⟨k0, v0⟩ := head
    simp only [insertReason] at hp
    by_cases hk : k0 = k
    · rw [if_pos hk] at hp
      rcases List.mem_cons.mp hp with h1 | h2
      · rw [h1]; exact hv
      · exact hacc _ (List.mem_cons_of_mem _ h2)
    · rw [if_neg hk] at hp
      rcases List.mem_cons.mp hp with h1 | h2
      · rw [h1]; exact hacc _ (List.mem_cons_self _ _)
      · exact ih (fun q hq => hacc q (List.mem_cons_of_mem _ hq)) _ h2

/-- The invite-chain walk fails only with one of its two fixed error
strings. -/
theorem inviteChainWalk_error_cases (ms : MembersV1) (owner : MemberId) :
    ∀ (fuel : Nat) (cur : AuthorizedMember) (acc : List AuthorizedMember)
      (e : String), inviteChainWalk ms owner fuel cur acc = Except.error e →
      e = "Invite chain does not terminate at the owner" ∨
        e = "Inviting member not found in member list" := by
  intro fuel
  induction fuel with
  | zero =>
    intro cur acc e h
    simp only [inviteChainWalk, Except.error.injEq] at h
    exact Or.inl h.symm
  | succ n ih =>
    intro cur acc e h
    simp only [inviteChainWalk] at h
    split at h
    · exact absurd h (by simp)
    · split at h
      · simp only [Except.error.injEq] at h
        exact Or.inr h.symm
      · exact ih _ _ _ h

/-- `get_invite_chain` fails only with one of the two fixed error strings of
the walk. -/
theorem get_invite_chain_error_cases (ms : MembersV1) (m : AuthorizedMember)
    (params : ChatRoomParametersV1) (e : String)
    (h : ms.get_invite_chain m params = Except.error e) :
    e = "Invite chain does not terminate at the owner" ∨
      e = "Inviting member not found in member list" :=
  inviteChainWalk_error_cases ms params.owner_id _ m [] e h

/-- The authorization loop never records the quota reason. -/
theorem authRulesStep_reason_ne_quota (parent : ChatRoomStateV1)
    (params : ChatRoomParametersV1) (acc : List (BanId × String))
    (ban : AuthorizedUserBan)
    (hacc : ∀ p ∈ acc, p.2 ≠ "Exceeded maximum number of user bans") :
    ∀ p ∈ authRulesStep parent params acc ban,
      p.2 ≠ "Exceeded maximum number of user bans" := by
  unfold authRulesStep
  split
  · exact insertReason_reason_ne _ _ _ (by decide) acc hacc
  · split
    · exact insertReason_reason_ne _ _ _ (by decide) acc hacc
    · split
      · split
        · rename_i banning _ _ e hchain
          rcases get_invite_chain_error_cases _ _ _ _ hchain with he | he <;>
            (rw [he]; exact insertReason_reason_ne _ _ _ (by decide) acc hacc)
        · split
          · exact insertReason_reason_ne _ _ _ (by decide) acc hacc
          · exact hacc
      · exact hacc

/-- Folding the authorization loop over any ban list preserves the absence of
the quota reason. -/
theorem foldl_authRulesStep_reason_ne_quota (parent : ChatRoomStateV1)
    (params : ChatRoomParametersV1) :
    ∀ (l : List AuthorizedUserBan) (acc : List (BanId × String)),
      (∀ p ∈ acc, p.2 ≠ "Exceeded maximum number of user bans") →
      ∀ p ∈ l.foldl (authRulesStep parent params) acc,
        p.2 ≠ "Exceeded maximum number of user bans" := by
  intro l
  induction l with
  | nil => intro acc hacc; simpa using hacc
  | cons b t ih =>
    intro acc hacc
    simp only [List.foldl_cons]
    exact ih _ (authRulesStep_reason_ne_quota parent params acc b hacc)

/-- A ban satisfying the code-side authorization condition contributes
nothing to the invalid map. -/
theorem authRulesStep_of_passes (parent : ChatRoomStateV1)
    (params : ChatRoomParametersV1) (acc : List (BanId × String))
    (ban : AuthorizedUserBan)
    (h : banPassesAuthRules parent params ban = true) :
    authRulesStep parent params acc ban = acc := by
  unfold authRulesStep
  split
  · rename_i hb
    exfalso
    simp [banPassesAuthRules, hb] at h
  · rename_i banning hb
    split
    · rename_i hb2
      exfalso
      simp [banPassesAuthRules, hb, hb2] at h
    · rename_i banned hb2
      split
      · rename_i ho
        split
        · rename_i e hchain
          exfalso
          simp [banPassesAuthRules, hb, hb2, hchain, if_pos ho] at h
        · rename_i chain hchain
          split
          · rename_i hany
            exfalso
            simp only [banPassesAuthRules, hb, hb2, hchain, if_pos ho] at h
            exact hany h
          · rfl
      · rfl

/-- Folding the authorization loop over a list of bans that all satisfy the
code-side authorization condition is the identity on the accumulator. -/
theorem foldl_authRulesStep_of_passes (parent : ChatRoomStateV1)
    (params : ChatRoomParametersV1) :
    ∀ (l : List AuthorizedUserBan),
      (∀ b ∈ l, banPassesAuthRules parent params b = true) →
      ∀ acc, l.foldl (authRulesStep parent params) acc = acc := by
  intro l
  induction l with
  | nil => intro _ acc; rfl
  | cons b t ih =>
    intro h acc
    simp only [List.foldl_cons]
    rw [authRulesStep_of_passes parent params acc b
      (h b (List.mem_cons_self _ _))]
    exact ih (fun x hx => h x (List.mem_cons_of_mem _ hx)) acc

/-- When the collection is within quota, `get_invalid_bans` is exactly the
authorization fold: the quota branch is skipped. -/
theorem get_invalid_bans_of_le_max (s : BansV1) (parent : ChatRoomStateV1)
    (params : ChatRoomParametersV1)
    (h : s.bans.length ≤ parent.configuration.configuration.max_user_bans) :
    s.get_invalid_bans parent params
      = s.bans.foldl (authRulesStep parent params) [] := by
  have hneg : ¬ ((s.bans.length : Int) -
      (parent.configuration.configuration.max_user_bans : Int) > 0) := by
    omega
  simp only [BansV1.get_invalid_bans]
  rw [if_neg hneg]

/-- `delta` returns the absence-of-change sentinel exactly when every local
ban's id is already in the old summary. -/
theorem delta_eq_none_iff (s : BansV1) (parent : ChatRoomStateV1)
    (params : ChatRoomParametersV1) (old : List BanId) :
    s.delta parent params old = none ↔ ∀ b ∈ s.bans, b.id ∈ old := by
  show (if (s.bans.filter (fun ban => decide (ban.id ∉ old))).isEmpty then
      (none : Option (List AuthorizedUserBan))
    else some (s.bans.filter (fun ban => decide (ban.id ∉ old)))) = none
    ↔ ∀ b ∈ s.bans, b.id ∈ old
  constructor
  · intro h
    by_cases he : (s.bans.filter (fun ban => decide (ban.id ∉ old))).isEmpty
    · rw [List.isEmpty_iff, List.filter_eq_nil_iff] at he
      intro b hb
      have := he b hb
      simpa using this
    · rw [if_neg he] at h
      exact absurd h (by simp)
  · intro h
    have he : (s.bans.filter (fun ban => decide (ban.id ∉ old))) = [] := by
      rw [List.filter_eq_nil_iff]
      intro b hb
      simpa using h b hb
    rw [he]
    rfl

/-- C1: The claim asserts that `verify` succeeds iff for every ban the banner
and the target are in the member directory and the banner is the owner or
lies in the banned user's invite chain.  The code checks the opposite
direction: it fetches the banner's invite chain and requires the banned
member to occur in it.  With owner O (id 0) inviting A (id 1) and A inviting
B (id 2), the ban of B issued by A satisfies the claim's condition
(`specAuthorizedBan`), yet `get_invalid_bans` marks it "Banner is not in the
invite chain of the banned member" and `verify` fails. -/
theorem c1_invite_chain_direction_bug :
    (BansV1.mk [banAonB]).bans.all
        (specAuthorizedBan (stateOAB 10) paramsOwner0) = true
    ∧ BansV1.get_invalid_bans ⟨[banAonB]⟩ (stateOAB 10) paramsOwner0
        = [(banAonB.id, "Banner is not in the invite chain of the banned member")]
    ∧ BansV1.verify ⟨[banAonB]⟩ (stateOAB 10) paramsOwner0
        = Except.error "Invalid bans" := by
  decide

/-- C2: The claim asserts that, over quota, exactly the oldest extra bans are
marked invalid.  With `max_user_bans = 5` and six owner-issued bans at
timestamps 0..5 (signatures 10..15), the code sorts ascending by `banned_at`,
reverses, and takes the first extra entry of the descending order — marking
the single NEWEST ban (id 15, `banned_at` 5) invalid, while the oldest ban
(id 10, `banned_at` 0) is not marked. -/
theorem c2_quota_marks_newest_not_oldest :
    bansSix.get_invalid_bans (stateOA 5) paramsOwner0
        = [(BanId.mk 15, "Exceeded maximum number of user bans")]
    ∧ bansSix.bans.length = 6
    ∧ (stateOA 5).configuration.configuration.max_user_bans = 5
    ∧ bansSix.bans.all
        (fun b => banPassesAuthRules (stateOA 5) paramsOwner0 b) = true
    ∧ bansSix.bans.any
        (fun b => decide (b.id = BanId.mk 15) && decide (b.ban.banned_at = 5))
        = true
    ∧ bansSix.bans.all (fun b => decide (b.ban.banned_at ≤ 5)) = true
    ∧ bansSix.bans.any
        (fun b => decide (b.id = BanId.mk 10) && decide (b.ban.banned_at = 0))
        = true
    ∧ (bansSix.get_invalid_bans (stateOA 5) paramsOwner0).all
        (fun p => decide (p.1 ≠ BanId.mk 10)) = true := by
  decide

/-- C5: `delta` returns exactly the bans whose id is absent from the old
summary, in collection order; it returns `none` iff every ban's id is already
in the old summary; and the delta of a state against its own summary is
`none`. -/
theorem c5_delta_against_summary (s : BansV1) (parent : ChatRoomStateV1)
    (params : ChatRoomParametersV1) (old : List BanId) :
    s.delta parent params old
      = (if (s.bans.filter (fun ban => decide (ban.id ∉ old))).isEmpty then
          none
        else some (s.bans.filter (fun ban => decide (ban.id ∉ old))))
    ∧ (s.delta parent params old = none ↔ ∀ b ∈ s.bans, b.id ∈ old)
    ∧ s.delta parent params (s.summarize parent params) = none := by
  refine ⟨rfl, delta_eq_none_iff s parent params old, ?_⟩
  rw [delta_eq_none_iff]
  intro b hb
  exact List.mem_map_of_mem _ hb

/-- C5 witness: a one-ban state whose id is in the old summary produces no
delta. -/
theorem c5_delta_against_summary_witness :
    BansV1.delta ⟨[ownerBanAt 0 10]⟩ (stateOA 5) paramsOwner0 [BanId.mk 10]
      = none :=
  (c5_delta_against_summary ⟨[ownerBanAt 0 10]⟩ (stateOA 5) paramsOwner0
    [BanId.mk 10]).2.1.mpr (by decide)

/-- C6: `verify` returns `Ok(())` iff `get_invalid_bans` returns an empty
map, and returns the error value "Invalid bans" whenever at least one ban is
invalid. -/
theorem c6_verify_iff_invalid_empty (s : BansV1) (parent : ChatRoomStateV1)
    (params : ChatRoomParametersV1) :
    (s.verify parent params = Except.ok ()
        ↔ s.get_invalid_bans parent params = [])
    ∧ (s.get_invalid_bans parent params ≠ [] →
        s.verify parent params = Except.error "Invalid bans") := by
  unfold BansV1.verify
  cases hi : s.get_invalid_bans parent params with
  | nil => simp
  | cons a l => simp

/-- C6 witness: a state with a ban by an unknown banner has a nonempty
invalid map, so `verify` returns the error value. -/
theorem c6_verify_iff_invalid_empty_witness :
    BansV1.verify ⟨[banAonB]⟩ (⟨⟨⟨5⟩⟩, ⟨[]⟩⟩ : ChatRoomStateV1) paramsOwner0
      = Except.error "Invalid bans" :=
  (c6_verify_iff_invalid_empty ⟨[banAonB]⟩ ⟨⟨⟨5⟩⟩, ⟨[]⟩⟩ paramsOwner0).2
    (by decide)

/-- C8: `summarize` returns exactly the list of `BanId`s of the collection's
bans, one per ban, in collection order, and depends on nothing but the bans
collection (any two parent states and parameter sets give the same
summary). -/
theorem c8_summarize_is_id_list (s : BansV1) (p1 p2 : ChatRoomStateV1)
    (par1 par2 : ChatRoomParametersV1) :
    s.summarize p1 par1 = s.bans.map (fun ban => ban.id)
    ∧ s.summarize p1 par1 = s.summarize p2 par2 :=
  ⟨rfl, rfl⟩

/-- C3: when `apply_delta` returns an error, the receiver's bans collection
is exactly its value before the call — no partial merge, no reordering, no
element added or removed. -/
theorem c3_apply_delta_error_keeps_state (s : BansV1)
    (parent : ChatRoomStateV1) (params : ChatRoomParametersV1)
    (d : List AuthorizedUserBan) (e : String)
    (h : (s.apply_delta parent params d).2 = Except.error e) :
    (s.apply_delta parent params d).1 = s := by
  simp only [BansV1.apply_delta] at h ⊢
  cases hv : BansV1.verify ⟨s.bans ++ d⟩ parent params with
  | error e2 => simp only [hv]
  | ok u =>
    rw [hv] at h
    simp at h

/-- C3 witness: applying a ban by an unknown banner to the empty collection
fails and leaves the collection empty. -/
theorem c3_apply_delta_error_keeps_state_witness :
    (BansV1.apply_delta ⟨[]⟩ (⟨⟨⟨5⟩⟩, ⟨[]⟩⟩ : ChatRoomStateV1) paramsOwner0
      [ownerBanAt 0 10]).1 = ⟨[]⟩ :=
  c3_apply_delta_error_keeps_state ⟨[]⟩ ⟨⟨⟨5⟩⟩, ⟨[]⟩⟩ paramsOwner0
    [ownerBanAt 0 10] "Invalid delta: Invalid bans" (by decide)

/-- C4: `apply_delta` succeeds iff the candidate state — the old records in
their original order followed by the delta's records in delta order — passes
`verify`, and on success the resulting collection is exactly that
candidate. -/
theorem c4_apply_delta_is_verified_append (s : BansV1)
    (parent : ChatRoomStateV1) (params : ChatRoomParametersV1)
    (d : List AuthorizedUserBan) :
    ((s.apply_delta parent params d).2 = Except.ok ()
        ↔ BansV1.verify ⟨s.bans ++ d⟩ parent params = Except.ok ())
    ∧ ((s.apply_delta parent params d).2 = Except.ok () →
        (s.apply_delta parent params d).1 = ⟨s.bans ++ d⟩) := by
  cases hv : BansV1.verify ⟨s.bans ++ d⟩ parent params with
  | error e =>
    constructor
    · simp only [BansV1.apply_delta, hv]
      simp
    · intro habs
      exfalso
      simp only [BansV1.apply_delta, hv] at habs
      simp at habs
  | ok u =>
    cases u
    constructor
    · simp only [BansV1.apply_delta, hv]
    · intro _
      simp only [BansV1.apply_delta, hv]

/-- C4 witness: appending one valid owner ban to the empty collection
succeeds and yields exactly the candidate collection. -/
theorem c4_apply_delta_is_verified_append_witness :
    (BansV1.apply_delta ⟨[]⟩ (stateOA 5) paramsOwner0 [ownerBanAt 0 10]).1
      = ⟨[ownerBanAt 0 10]⟩ :=
  (c4_apply_delta_is_verified_append ⟨[]⟩ (stateOA 5) paramsOwner0
    [ownerBanAt 0 10]).2 (by decide)

/-- C7: The claim asserts that re-applying an already-present ban is rejected
with an error and leaves the collection size unchanged.  The code contains no
duplicate check: with owner-issued ban `ownerBanAt 0 10` already present and
quota 5, applying the identical ban again verifies the two-element candidate
successfully, returns `Ok(())`, and grows the collection from one to two
copies. -/
theorem c7_duplicate_delta_accepted :
    BansV1.verify ⟨[ownerBanAt 0 10]⟩ (stateOA 5) paramsOwner0 = Except.ok ()
    ∧ BansV1.apply_delta ⟨[ownerBanAt 0 10]⟩ (stateOA 5) paramsOwner0
        [ownerBanAt 0 10]
        = (⟨[ownerBanAt 0 10, ownerBanAt 0 10]⟩, Except.ok ())
    ∧ (BansV1.apply_delta ⟨[ownerBanAt 0 10]⟩ (stateOA 5) paramsOwner0
        [ownerBanAt 0 10]).1.bans.length = 2 := by
  decide

/-- C9: applying the empty delta succeeds iff the state itself passes
`verify`, and on success the collection is exactly the original one. -/
theorem c9_empty_delta_identity (s : BansV1) (parent : ChatRoomStateV1)
    (params : ChatRoomParametersV1) :
    ((s.apply_delta parent params []).2 = Except.ok ()
        ↔ s.verify parent params = Except.ok ())
    ∧ ((s.apply_delta parent params []).2 = Except.ok () →
        (s.apply_delta parent params []).1 = s) := by
  have key : s.apply_delta parent params []
      = (match s.verify parent params with
        | Except.error e => (s, Except.error ("Invalid delta: " ++ e))
        | Except.ok _ => (s, Except.ok ())) := by
    cases s with
    | mk l => simp [BansV1.apply_delta]
  cases hv : s.verify parent params with
  | error e =>
    rw [key, hv]
    constructor
    · simp
    · intro habs
      exfalso
      simp at habs
  | ok u =>
    cases u
    rw [key, hv]
    exact ⟨Iff.rfl, fun _ => rfl⟩

/-- C9 witness: the empty delta applied to a valid one-ban state succeeds and
leaves the state intact. -/
theorem c9_empty_delta_identity_witness :
    (BansV1.apply_delta ⟨[ownerBanAt 0 10]⟩ (stateOA 5) paramsOwner0 []).1
      = ⟨[ownerBanAt 0 10]⟩ :=
  (c9_empty_delta_identity ⟨[ownerBanAt 0 10]⟩ (stateOA 5) paramsOwner0).2
    (by decide)

/-- C10: when the collection's length is at most `max_user_bans`, no ban is
marked invalid for the quota reason, and a collection of otherwise-valid bans
(each passing the authorization rules) passes `verify` — the quota rule fires
only when the count strictly exceeds the maximum. -/
theorem c10_no_quota_reason_within_max (s : BansV1)
    (parent : ChatRoomStateV1) (params : ChatRoomParametersV1)
    (h : s.bans.length ≤ parent.configuration.configuration.max_user_bans) :
    (∀ p ∈ s.get_invalid_bans parent params,
        p.2 ≠ "Exceeded maximum number of user bans")
    ∧ ((∀ b ∈ s.bans, banPassesAuthRules parent params b = true) →
        s.verify parent params = Except.ok ()) := by
  have hG := get_invalid_bans_of_le_max s parent params h
  constructor
  · rw [hG]
    exact foldl_authRulesStep_reason_ne_quota parent params s.bans []
      (by simp)
  · intro hall
    have hempty : s.get_invalid_bans parent params = [] := by
      rw [hG, foldl_authRulesStep_of_passes parent params s.bans hall []]
    unfold BansV1.verify
    rw [hempty]
    simp

/-- C10 witness: exactly `max_user_bans = 2` owner-issued bans pass
`verify`. -/
theorem c10_no_quota_reason_within_max_witness :
    BansV1.verify ⟨[ownerBanAt 0 10, ownerBanAt 1 11]⟩ (stateOA 2)
      paramsOwner0 = Except.ok () :=
  (c10_no_quota_reason_within_max ⟨[ownerBanAt 0 10, ownerBanAt 1 11]⟩
    (stateOA 2) paramsOwner0 (by decide)).2 (by decide)
